import Mathlib

/-!
# Verification of the Beeminder MCP server core

Shallow embedding of the reconciliation/classification core of
`src/server/index.js`: the autoratchet reconciler (`adjustForAutoratchet`),
the urgency classifier (`getUrgencyHorizon` with `MORNING`), the
submission-completion coordinator (`createAndCheckDatapoint`), and the lazy
goal aggregator (`getGoalDetails` / `listGoals` and the `beemergencies` /
`calendial` tool dispatches).

Conventions of the embedding:
* JS numbers that hold Unix timestamps, day counts and goal values are
  modelled as `Int`.
* `goal.autoratchet` (a JS field that is a number or absent) is modelled as
  `Option Int`; the source guard `typeof goal.autoratchet === 'number' &&
  goal.autoratchet >= 0` becomes a match on `some a` with `0 ≤ a`.
* Remote fetches are modelled as oracles passed in as arguments: a
  per-slug full-detail fetch `String → Except String GoalSnapshot` (an
  `Except.error` models a thrown/rejected RPC call, caught by the source's
  `try`/`catch`), and for the poll loop the sequence of snapshots the
  successive fetches return.
* `new Date(..).toLocaleString` / `toISOString` rendering is abstracted by
  `formatDueDate`, a function of the timestamp alone (the claims only use
  that the rendered `dueBy` is determined by the resulting `loseDate`).
* `Array.prototype.sort` with the comparator
  `(a, b) => a.urgencykey.localeCompare(b.urgencykey)` is modelled as the
  stable `List.insertionSort` by codepoint-lexicographic (ordinal) `≤` on
  `urgencykey`; JS `sort` is stable, and on the ASCII urgency keys involved
  `localeCompare` agrees with ordinal comparison.
-/

namespace Beeminder

/-- `const SECONDS_PER_DAY = 24*60*60;` -/
def SECONDS_PER_DAY : Int := 24 * 60 * 60

/-- A goal snapshot as returned by the remote service (either projection). -/
structure GoalSnapshot where
  slug : String
  title : String
  description : String
  rate : Int
  runits : String
  gunits : String
  curval : Int
  goalval : Int
  safebuf : Int
  losedate : Int
  urgencykey : String
  autoratchet : Option Int
  last_datapoint : Option Int
  queued : Bool
  fineprint : Option String
deriving Repr, DecidableEq

/-- Abstraction of `formatDueDate` (`new Date(losedate*1000).toLocaleString(..)`):
a rendering of the timestamp, a function of `losedate` alone. -/
def formatDueDate (losedate : Int) : String :=
  toString losedate

/-- JS `String.prototype.padStart(n, c)`: pad `s` on the left with `c` up to
length `n` (no change when `s` is already long enough). -/
def padStart (s : String) (n : Nat) (c : Char) : String :=
  if s.length ≥ n then s else String.mk (List.replicate (n - s.length) c) ++ s

/-- JS `keyParts[2] = v` on the array produced by `split(';')`: assigning
index 2 extends a shorter array with empty-string holes (as `join(';')`
renders holes). -/
def setSegment2 (parts : List String) (v : String) : List String :=
  match parts with
  | [] => ["", "", v]
  | [a] => [a, "", v]
  | [a, b] => [a, b, v]
  | a :: b :: _ :: rest => a :: b :: v :: rest

/-- The urgencykey rewrite of `adjustForAutoratchet`:
`keyParts = goal.urgencykey.split(';'); keyParts[2] = 'DL' +
loseDate.toString().padStart(10, '0'); urgencykey = keyParts.join(';')`. -/
def rewriteUrgencykey (key : String) (loseDate : Int) : String :=
  String.intercalate ";" (setSegment2 (key.splitOn ";") ("DL" ++ padStart (toString loseDate) 10 '0'))

/-- Result record of `adjustForAutoratchet`:
`{ safeDays, loseDate, dueBy, urgencykey }`. -/
structure Reconciled where
  safeDays : Int
  loseDate : Int
  dueBy : String
  urgencykey : String
deriving Repr, DecidableEq

/-- `adjustForAutoratchet(goal)` from `src/server/index.js` (lines 852–878):
caps `safebuf` at `autoratchet + 1` and pulls `losedate` earlier by the
excess days, rewriting the deadline segment of `urgencykey` when `loseDate`
changed. -/
def adjustForAutoratchet (goal : GoalSnapshot) : Reconciled :=
  let adjusted : Int × Int :=
    match goal.autoratchet with
    | some a =>
      if 0 ≤ a then
        let autoratchet := a + 1
        let loseDate :=
          if goal.safebuf > autoratchet then
            goal.losedate - (goal.safebuf - autoratchet) * SECONDS_PER_DAY
          else
            goal.losedate
        (min goal.safebuf autoratchet, loseDate)
      else
        (goal.safebuf, goal.losedate)
    | none => (goal.safebuf, goal.losedate)
  let safeDays := adjusted.1
  let loseDate := adjusted.2
  let dueBy := formatDueDate loseDate
  let urgencykey :=
    if loseDate ≠ goal.losedate then rewriteUrgencykey goal.urgencykey loseDate
    else goal.urgencykey
  { safeDays := safeDays, loseDate := loseDate, dueBy := dueBy, urgencykey := urgencykey }

/-- `MORNING()` (lines 811–816): Unix timestamp of the next occurrence of the
user's day-start time. `localMidnight` stands for the `Date`-computed start
of the local day containing now; `dayStart` is `getDayStart()`'s seconds
past midnight. -/
def MORNING (localMidnight dayStart : Int) : Int :=
  localMidnight + SECONDS_PER_DAY + dayStart

/-- `getUrgencyHorizon(losedate)` (lines 882–907), with the ambient clock
state (`NOW()` and the local-midnight and day-start inputs of `MORNING()`)
made explicit. `Math.floor` of the division is `Int.fdiv`. -/
def getUrgencyHorizon (losedate now localMidnight dayStart : Int) : String :=
  if losedate ≤ MORNING localMidnight dayStart then
    "today"
  else if losedate ≤ MORNING localMidnight dayStart + SECONDS_PER_DAY then
    "tomorrow"
  else
    let secondsLeft := losedate - now
    let daysLeft := Int.fdiv secondsLeft SECONDS_PER_DAY
    if daysLeft ≤ 7 then "committed"
    else if daysLeft ≤ 15 then "calendial"
    else "safe"

/-- `await setTimeout(2000)` inside the poll loop: the fixed poll interval in
milliseconds. -/
def POLL_INTERVAL_MS : Nat := 2000

/-- The poll loop of `createAndCheckDatapoint` (lines 737–743):
`queued = true; while (queued) { wait; goalStatus = fetch; queued =
goalStatus.queued }`. `fetchResults` is the sequence of snapshots the
successive full-detail fetches return; the result is the number of fetches
performed together with the first non-queued snapshot, or `none` when every
fetch reports `queued` (the source loop never terminates then). -/
def pollForSettled : List GoalSnapshot → Option (Nat × GoalSnapshot)
  | [] => none
  | g :: rest =>
    if g.queued then
      match pollForSettled rest with
      | some (n, settled) => some (n + 1, settled)
      | none => none
    else
      some (1, g)

/-- The data the success message of `createAndCheckDatapoint` reports:
the submitted datapoint id and the reconciled/classified goal status, plus
the number of full-detail fetches the poll loop performed. -/
structure SubmitOutcome where
  datapointId : Int
  fetches : Nat
  safeDays : Int
  loseDate : Int
  dueBy : String
  urgencyHorizon : String
deriving Repr, DecidableEq

/-- `createAndCheckDatapoint` (lines 720–757), post-submission part: the
datapoint has been created (`datapointId` is the remote-assigned id), then
the poll loop runs over `fetchResults`, and the settled snapshot is passed
through `adjustForAutoratchet` and `getUrgencyHorizon`. `none` models the
loop never terminating. -/
def createAndCheckDatapoint (datapointId : Int) (fetchResults : List GoalSnapshot)
    (now localMidnight dayStart : Int) : Option SubmitOutcome :=
  match pollForSettled fetchResults with
  | none => none
  | some (n, goalStatus) =>
    let r := adjustForAutoratchet goalStatus
    some
      { datapointId := datapointId
        fetches := n
        safeDays := r.safeDays
        loseDate := r.loseDate
        dueBy := r.dueBy
        urgencyHorizon := getUrgencyHorizon r.loseDate now localMidnight dayStart }

/-- The processed goal record built by `getGoalDetails` (lines 633–646).
`fineprint` is `none` until the source adds the field (only when full data
was fetched). -/
structure ProcessedGoal where
  urgency_horizon : String
  due_by : String
  safe_days : Int
  safebuf : Int
  rate_description : String
  current_value : Int
  target_value : Int
  urgencykey : String
  slug : String
  title : String
  description : String
  fineprint : Option String
deriving Repr, DecidableEq

/-- `getGoalDetails(bm, goal, needsFullDataFilter)` (lines 604–667).
`fetchFull` models `getEmaciatedGoal(bm, slug)`; an `Except.error` is a
thrown fetch, caught and logged by the source. -/
def getGoalDetails (now localMidnight dayStart : Int)
    (fetchFull : String → Except String GoalSnapshot)
    (needsFullDataFilter : ProcessedGoal → Bool) (goal : GoalSnapshot) : ProcessedGoal :=
  let needsAutoratchetCheck : Bool :=
    match goal.last_datapoint with
    | some ts => decide (now - ts < SECONDS_PER_DAY)
    | none => false
  -- (safeDays, loseDate, urgencykey, goalData, alreadyHaveFullData) after the
  -- autoratchet branch
  let st1 : Int × Int × String × GoalSnapshot × Bool :=
    if needsAutoratchetCheck then
      match fetchFull goal.slug with
      | Except.ok goalData =>
        let adjusted := adjustForAutoratchet goalData
        (adjusted.safeDays, adjusted.loseDate, adjusted.urgencykey, goalData, true)
      | Except.error _ => (goal.safebuf, goal.losedate, goal.urgencykey, goal, false)
    else
      (goal.safebuf, goal.losedate, goal.urgencykey, goal, false)
  let safeDays := st1.1
  let loseDate := st1.2.1
  let urgencykey := st1.2.2.1
  let processedGoal : ProcessedGoal :=
    { urgency_horizon := getUrgencyHorizon loseDate now localMidnight dayStart
      due_by := formatDueDate loseDate
      safe_days := safeDays
      safebuf := safeDays
      rate_description := toString goal.rate ++ " " ++ goal.runits ++ " per " ++ goal.gunits
      current_value := goal.curval
      target_value := goal.goalval
      urgencykey := urgencykey
      slug := goal.slug
      title := goal.title
      description := goal.description
      fineprint := none }
  let shouldGetFullData := needsFullDataFilter processedGoal
  -- (goalData, alreadyHaveFullData) after the optional second fetch
  let st2 : GoalSnapshot × Bool :=
    if shouldGetFullData && !st1.2.2.2.2 then
      match fetchFull goal.slug with
      | Except.ok goalData => (goalData, true)
      | Except.error _ => (st1.2.2.2.1, st1.2.2.2.2)
    else
      (st1.2.2.2.1, st1.2.2.2.2)
  -- `if (alreadyHaveFullData) { processedGoal.fineprint = goalData.fineprint || ""; }`
  let fineprintField : Option String :=
    if st2.2 then some (st2.1.fineprint.getD "") else none
  { processedGoal with fineprint := fineprintField }

/-- Codepoint-lexicographic (ordinal) string order, written out on the
character lists so it evaluates by kernel reduction. -/
def charsLe : List Char → List Char → Bool
  | [], _ => true
  | _ :: _, [] => false
  | a :: as, b :: bs =>
    if a < b then true
    else if b < a then false
    else charsLe as bs

theorem charsLe_total : ∀ x y : List Char, charsLe x y = true ∨ charsLe y x = true
  | [], _ => Or.inl rfl
  | _ :: _, [] => Or.inr rfl
  | a :: as, b :: bs => by
    simp only [charsLe]
    rcases lt_trichotomy a b with h | h | h
    · left
      rw [if_pos h]
    · subst h
      rw [if_neg (lt_irrefl a), if_neg (lt_irrefl a), if_neg (lt_irrefl a),
        if_neg (lt_irrefl a)]
      exact charsLe_total as bs
    · right
      rw [if_pos h]

theorem charsLe_trans :
    ∀ x y z : List Char, charsLe x y = true → charsLe y z = true → charsLe x z = true
  | [], _, _, _, _ => rfl
  | _ :: _, [], _, h, _ => by simp [charsLe] at h
  | _ :: _, _ :: _, [], _, h2 => by simp [charsLe] at h2
  | a :: as, b :: bs, c :: cs, h1, h2 => by
    simp only [charsLe] at h1 h2 ⊢
    rcases lt_trichotomy a b with hab | hab | hab
    · rcases lt_trichotomy b c with hbc | hbc | hbc
      · rw [if_pos (lt_trans hab hbc)]
      · subst hbc
        rw [if_pos hab]
      · rw [if_neg (lt_asymm hbc), if_pos hbc] at h2
        simp at h2
    · subst hab
      rcases lt_trichotomy a c with hac | hac | hac
      · rw [if_pos hac]
      · subst hac
        rw [if_neg (lt_irrefl a), if_neg (lt_irrefl a)] at h1 h2 ⊢
        exact charsLe_trans as bs cs h1 h2
      · rw [if_neg (lt_asymm hac), if_pos hac] at h2
        simp at h2
    · rw [if_neg (lt_asymm hab), if_pos hab] at h1
      simp at h1

/-- The sort relation of `filteredGoals.sort((a, b) =>
a.urgencykey.localeCompare(b.urgencykey))`: ordinal comparison of the
urgency keys. -/
def urgencyLE (a b : ProcessedGoal) : Prop :=
  charsLe a.urgencykey.data b.urgencykey.data = true

instance : DecidableRel urgencyLE := fun a b =>
  inferInstanceAs (Decidable (charsLe a.urgencykey.data b.urgencykey.data = true))

instance : IsTotal ProcessedGoal urgencyLE :=
  ⟨fun a b => charsLe_total a.urgencykey.data b.urgencykey.data⟩

instance : IsTrans ProcessedGoal urgencyLE :=
  ⟨fun _ _ _ hab hbc => charsLe_trans _ _ _ hab hbc⟩

/-- `listGoals(urgencyFilter)` (lines 669–716): map `getGoalDetails` over the
lightweight goal list, filter when a predicate was supplied, and sort by
`urgencykey` (stable sort, as JS `Array.prototype.sort`). -/
def listGoals (goals : List GoalSnapshot) (fetchFull : String → Except String GoalSnapshot)
    (urgencyFilter : Option (ProcessedGoal → Bool))
    (now localMidnight dayStart : Int) : List ProcessedGoal :=
  let needsFullDataFilter : ProcessedGoal → Bool :=
    match urgencyFilter with
    | some f => fun goal => f goal
    | none => fun _ => false
  let goalsWithStatus :=
    goals.map (getGoalDetails now localMidnight dayStart fetchFull needsFullDataFilter)
  let filteredGoals :=
    match urgencyFilter with
    | some f => goalsWithStatus.filter f
    | none => goalsWithStatus
  filteredGoals.insertionSort urgencyLE

/-- The `beemergencies` tool dispatch (lines 587–591):
`listGoals((goal) => goal.safe_days === 0)`. -/
def beemergencies (goals : List GoalSnapshot) (fetchFull : String → Except String GoalSnapshot)
    (now localMidnight dayStart : Int) : List ProcessedGoal :=
  listGoals goals fetchFull (some fun goal => goal.safe_days == 0) now localMidnight dayStart

/-- The `calendial` tool dispatch (lines 592–596):
`listGoals((goal) => goal.urgency_horizon === 'calendial')`. -/
def calendialGoals (goals : List GoalSnapshot) (fetchFull : String → Except String GoalSnapshot)
    (now localMidnight dayStart : Int) : List ProcessedGoal :=
  listGoals goals fetchFull (some fun goal => goal.urgency_horizon == "calendial")
    now localMidnight dayStart

/-! ## General lemmas about the definitions -/

theorem setSegment2_eq_set {parts : List String} (v : String) (h : 3 ≤ parts.length) :
    setSegment2 parts v = parts.set 2 v := by
  match parts with
  | [] => simp at h
  | [_] => simp at h
  | [_, _] => simp at h
  | _ :: _ :: _ :: _ => rfl

/-- The shape of `adjustForAutoratchet` on a goal with an active autoratchet
stricter than the current buffer. -/
theorem adjustForAutoratchet_of_active {g : GoalSnapshot} {a : Int}
    (ha : g.autoratchet = some a) (ha0 : 0 ≤ a) (hbuf : a + 1 < g.safebuf) :
    adjustForAutoratchet g =
      { safeDays := min g.safebuf (a + 1)
        loseDate := g.losedate - (g.safebuf - (a + 1)) * 86400
        dueBy := formatDueDate (g.losedate - (g.safebuf - (a + 1)) * 86400)
        urgencykey := rewriteUrgencykey g.urgencykey (g.losedate - (g.safebuf - (a + 1)) * 86400) } := by
  have hlt : g.safebuf > a + 1 := hbuf
  have hne : g.losedate - (g.safebuf - (a + 1)) * SECONDS_PER_DAY ≠ g.losedate := by
    simp only [SECONDS_PER_DAY]
    omega
  simp only [adjustForAutoratchet, ha, if_pos ha0, if_pos hlt, if_pos hne, SECONDS_PER_DAY]
  norm_num
  intro h
  exact absurd h (by omega)

/-- The shape of `adjustForAutoratchet` on a goal with an active autoratchet
that is not stricter than the current buffer: the buffer is capped (a
no-op `min`) and nothing else changes. -/
theorem adjustForAutoratchet_of_capped {g : GoalSnapshot} {a : Int}
    (ha : g.autoratchet = some a) (ha0 : 0 ≤ a) (hbuf : ¬ (a + 1 < g.safebuf)) :
    adjustForAutoratchet g =
      { safeDays := min g.safebuf (a + 1)
        loseDate := g.losedate
        dueBy := formatDueDate g.losedate
        urgencykey := g.urgencykey } := by
  have hle : ¬ (g.safebuf > a + 1) := hbuf
  simp [adjustForAutoratchet, ha, if_pos ha0, if_neg hle]

/-- The shape of `adjustForAutoratchet` on a goal whose autoratchet is
disabled (absent or negative). -/
theorem adjustForAutoratchet_of_inactive {g : GoalSnapshot}
    (h : ∀ a : Int, g.autoratchet = some a → a < 0) :
    adjustForAutoratchet g =
      { safeDays := g.safebuf
        loseDate := g.losedate
        dueBy := formatDueDate g.losedate
        urgencykey := g.urgencykey } := by
  match hcase : g.autoratchet with
  | none => simp [adjustForAutoratchet, hcase]
  | some a =>
    have hneg : ¬ (0 ≤ a) := by
      have := h a hcase
      omega
    simp [adjustForAutoratchet, hcase, hneg]

/-! ## Claims about the autoratchet reconciler -/

/-- **C1**: For a goal snapshot whose `autoratchet` is a non-negative integer
`a` and whose `safebuf` exceeds `cap = a + 1`, `adjustForAutoratchet` returns
`safeDays = min safebuf cap`, `loseDate = losedate - (safebuf - cap) * 86400`,
and an `urgencykey` whose third `;`-delimited segment is replaced by the
ASCII tag `DL` followed by the new `loseDate` zero-padded to 10 digits. -/
theorem adjustForAutoratchet_caps (g : GoalSnapshot) (a : Int)
    (ha : g.autoratchet = some a) (ha0 : 0 ≤ a) (hbuf : a + 1 < g.safebuf) :
    (adjustForAutoratchet g).safeDays = min g.safebuf (a + 1) ∧
    (adjustForAutoratchet g).loseDate = g.losedate - (g.safebuf - (a + 1)) * 86400 ∧
    (3 ≤ (g.urgencykey.splitOn ";").length →
      (adjustForAutoratchet g).urgencykey =
        String.intercalate ";" ((g.urgencykey.splitOn ";").set 2
          ("DL" ++ padStart (toString ((adjustForAutoratchet g).loseDate)) 10 '0'))) := by
  rw [adjustForAutoratchet_of_active ha ha0 hbuf]
  refine ⟨rfl, rfl, fun hlen => ?_⟩
  rw [rewriteUrgencykey, setSegment2_eq_set _ hlen]

/-- Example goal for the reconciler claims: `safebuf = 10`, `losedate =
1000000`, `autoratchet = 3`. -/
def exRatchetGoal : GoalSnapshot :=
  { slug := "books", title := "Read books", description := "d", rate := 1, runits := "books"
    gunits := "week", curval := 4, goalval := 52, safebuf := 10, losedate := 1000000
    urgencykey := "k1;k2;DL0001000000;rest", autoratchet := some 3, last_datapoint := none
    queued := false, fineprint := none }

/-- Witness for **C1** at `safebuf = 10`, `losedate = T = 1000000`,
`autoratchet = 3`: `safeDays = min 10 4 = 4` and
`loseDate = T - 6 * 86400`. -/
theorem adjustForAutoratchet_caps_witness :
    (adjustForAutoratchet exRatchetGoal).safeDays = min 10 4 ∧
    (adjustForAutoratchet exRatchetGoal).loseDate = 1000000 - (10 - 4) * 86400 ∧
    (3 ≤ (exRatchetGoal.urgencykey.splitOn ";").length →
      (adjustForAutoratchet exRatchetGoal).urgencykey =
        String.intercalate ";" ((exRatchetGoal.urgencykey.splitOn ";").set 2
          ("DL" ++ padStart (toString ((adjustForAutoratchet exRatchetGoal).loseDate)) 10 '0'))) :=
  adjustForAutoratchet_caps exRatchetGoal 3 rfl (by decide) (by decide)

/-- **C5**: For a goal snapshot whose `autoratchet` is not a non-negative
integer (absent or negative), `adjustForAutoratchet` is the identity on
`{safebuf, losedate, urgencykey}`, and `dueBy` is simply `losedate`
formatted. -/
theorem adjustForAutoratchet_identity (g : GoalSnapshot)
    (h : ∀ a : Int, g.autoratchet = some a → a < 0) :
    adjustForAutoratchet g =
      { safeDays := g.safebuf
        loseDate := g.losedate
        dueBy := formatDueDate g.losedate
        urgencykey := g.urgencykey } :=
  adjustForAutoratchet_of_inactive h

/-- Witness for **C5**: a goal with `autoratchet` absent is unchanged. -/
theorem adjustForAutoratchet_identity_witness :
    adjustForAutoratchet { exRatchetGoal with autoratchet := none } =
      { safeDays := ({ exRatchetGoal with autoratchet := none } : GoalSnapshot).safebuf
        loseDate := ({ exRatchetGoal with autoratchet := none } : GoalSnapshot).losedate
        dueBy := formatDueDate ({ exRatchetGoal with autoratchet := none } : GoalSnapshot).losedate
        urgencykey := ({ exRatchetGoal with autoratchet := none } : GoalSnapshot).urgencykey } :=
  adjustForAutoratchet_identity { exRatchetGoal with autoratchet := none }
    (by intro a ha; simp at ha)

/-- **C6**: For every goal snapshot, the reconciled `safeDays` never exceeds
the raw `safebuf` and the reconciled `loseDate` never exceeds the raw
`losedate`: reconciliation only pulls the deadline earlier or leaves it
unchanged. -/
theorem adjustForAutoratchet_never_later (g : GoalSnapshot) :
    (adjustForAutoratchet g).safeDays ≤ g.safebuf ∧
    (adjustForAutoratchet g).loseDate ≤ g.losedate := by
  match hcase : g.autoratchet with
  | none => simp [adjustForAutoratchet, hcase]
  | some a =>
    simp only [adjustForAutoratchet, hcase, SECONDS_PER_DAY]
    split_ifs <;> constructor <;> simp <;> omega

/-- The output of `adjustForAutoratchet` fed back into the raw fields of the
goal, `autoratchet` held constant. -/
def reapplyInput (g : GoalSnapshot) : GoalSnapshot :=
  { g with
    safebuf := (adjustForAutoratchet g).safeDays
    losedate := (adjustForAutoratchet g).loseDate
    urgencykey := (adjustForAutoratchet g).urgencykey }

/-- **C4**: `adjustForAutoratchet` is idempotent: feeding the first
application's `safeDays`/`loseDate`/`urgencykey` back in as the raw
`safebuf`/`losedate`/`urgencykey` (holding `autoratchet` constant), a second
application produces no further change. -/
theorem adjustForAutoratchet_idempotent (g : GoalSnapshot) :
    adjustForAutoratchet (reapplyInput g) = adjustForAutoratchet g := by
  match hcase : g.autoratchet with
  | none =>
    have h : ∀ a : Int, g.autoratchet = some a → a < 0 := by simp [hcase]
    have h' : ∀ a : Int, (reapplyInput g).autoratchet = some a → a < 0 := by
      simp [reapplyInput, hcase]
    rw [adjustForAutoratchet_of_inactive h', adjustForAutoratchet_of_inactive h]
    simp [reapplyInput, adjustForAutoratchet_of_inactive h]
  | some a =>
    have hr : (reapplyInput g).autoratchet = some a := hcase
    by_cases ha0 : 0 ≤ a
    · by_cases hbuf : a + 1 < g.safebuf
      · have h1 := adjustForAutoratchet_of_active hcase ha0 hbuf
        have hbuf' : ¬ (a + 1 < (reapplyInput g).safebuf) := by
          simp only [reapplyInput, h1]
          omega
        rw [adjustForAutoratchet_of_capped hr ha0 hbuf', h1]
        simp only [reapplyInput, h1]
        simp only [Reconciled.mk.injEq]
        exact ⟨by omega, by simp, by simp, by simp⟩
      · have h1 := adjustForAutoratchet_of_capped hcase ha0 hbuf
        have hbuf' : ¬ (a + 1 < (reapplyInput g).safebuf) := by
          simp only [reapplyInput, h1]
          omega
        rw [adjustForAutoratchet_of_capped hr ha0 hbuf', h1]
        simp only [reapplyInput, h1]
        simp only [Reconciled.mk.injEq]
        exact ⟨by omega, by simp, by simp, by simp⟩
    · have h : ∀ b : Int, g.autoratchet = some b → b < 0 := by
        intro b hb
        rw [hcase] at hb
        cases hb
        omega
      have h' : ∀ b : Int, (reapplyInput g).autoratchet = some b → b < 0 := by
        intro b hb
        have hb' : g.autoratchet = some b := hb
        exact h b hb'
      rw [adjustForAutoratchet_of_inactive h', adjustForAutoratchet_of_inactive h]
      simp [reapplyInput, adjustForAutoratchet_of_inactive h]

/-! ## Claims about the urgency classifier -/

/-- **C2**: `getUrgencyHorizon` applies its rules in order: with
`morning = MORNING localMidnight dayStart = localMidnight + 86400 +
dayStart` (the next occurrence of the user's day-start time),
`loseDate ≤ morning` yields `"today"`; otherwise `loseDate ≤ morning +
86400` yields `"tomorrow"`; otherwise, with `daysLeft = ⌊(loseDate - now) /
86400⌋`, `daysLeft ≤ 7` yields `"committed"`, `daysLeft ≤ 15` yields
`"calendial"`, anything larger `"safe"`; in particular `daysLeft` of exactly
7 is `"committed"`, exactly 8 and exactly 15 are `"calendial"`, 16 is
`"safe"`, and every boundary comparison is `≤`. -/
theorem getUrgencyHorizon_spec (losedate now localMidnight dayStart : Int) :
    (MORNING localMidnight dayStart = localMidnight + 86400 + dayStart) ∧
    (losedate ≤ MORNING localMidnight dayStart →
      getUrgencyHorizon losedate now localMidnight dayStart = "today") ∧
    (MORNING localMidnight dayStart < losedate →
      losedate ≤ MORNING localMidnight dayStart + 86400 →
      getUrgencyHorizon losedate now localMidnight dayStart = "tomorrow") ∧
    (MORNING localMidnight dayStart + 86400 < losedate →
      getUrgencyHorizon losedate now localMidnight dayStart =
        (if Int.fdiv (losedate - now) 86400 ≤ 7 then "committed"
         else if Int.fdiv (losedate - now) 86400 ≤ 15 then "calendial"
         else "safe")) ∧
    (MORNING localMidnight dayStart + 86400 < losedate →
      (Int.fdiv (losedate - now) 86400 = 7 →
        getUrgencyHorizon losedate now localMidnight dayStart = "committed") ∧
      (Int.fdiv (losedate - now) 86400 = 8 →
        getUrgencyHorizon losedate now localMidnight dayStart = "calendial") ∧
      (Int.fdiv (losedate - now) 86400 = 15 →
        getUrgencyHorizon losedate now localMidnight dayStart = "calendial") ∧
      (Int.fdiv (losedate - now) 86400 = 16 →
        getUrgencyHorizon losedate now localMidnight dayStart = "safe")) := by
  have hm : MORNING localMidnight dayStart = localMidnight + 86400 + dayStart := by
    simp only [MORNING, SECONDS_PER_DAY]
    norm_num
  refine ⟨hm, fun h1 => ?_, fun h1 h2 => ?_, fun h1 => ?_, fun h1 => ?_⟩
  · rw [getUrgencyHorizon, if_pos h1]
  · rw [getUrgencyHorizon, if_neg (by omega), if_pos (by rw [SECONDS_PER_DAY]; omega)]
  · rw [getUrgencyHorizon, if_neg (by omega), if_neg (by rw [SECONDS_PER_DAY]; omega)]
    simp only [SECONDS_PER_DAY]
    norm_num
  · have h3 : getUrgencyHorizon losedate now localMidnight dayStart =
        (if Int.fdiv (losedate - now) 86400 ≤ 7 then "committed"
         else if Int.fdiv (losedate - now) 86400 ≤ 15 then "calendial"
         else "safe") := by
      rw [getUrgencyHorizon, if_neg (by omega), if_neg (by rw [SECONDS_PER_DAY]; omega)]
      simp only [SECONDS_PER_DAY]
      norm_num
    refine ⟨fun h7 => ?_, fun h8 => ?_, fun h15 => ?_, fun h16 => ?_⟩
    · rw [h3, if_pos (by omega)]
    · rw [h3, if_neg (by omega), if_pos (by omega)]
    · rw [h3, if_neg (by omega), if_pos (by omega)]
    · rw [h3, if_neg (by omega), if_neg (by omega)]

/-- Witness for **C2**: with `now = 0`, local midnight `0` and the default
day start 07:00 (25200 s), concrete deadlines land in each bucket; the
`daysLeft` boundaries 7, 8, 15 and 16 classify as committed, calendial,
calendial and safe. -/
theorem getUrgencyHorizon_spec_witness :
    getUrgencyHorizon 100 0 0 25200 = "today" ∧
    getUrgencyHorizon 150000 0 0 25200 = "tomorrow" ∧
    getUrgencyHorizon (7 * 86400) 0 0 25200 = "committed" ∧
    getUrgencyHorizon (8 * 86400) 0 0 25200 = "calendial" ∧
    getUrgencyHorizon (15 * 86400) 0 0 25200 = "calendial" ∧
    getUrgencyHorizon (16 * 86400) 0 0 25200 = "safe" :=
  ⟨(getUrgencyHorizon_spec 100 0 0 25200).2.1 (by decide),
   (getUrgencyHorizon_spec 150000 0 0 25200).2.2.1 (by decide) (by decide),
   ((getUrgencyHorizon_spec (7 * 86400) 0 0 25200).2.2.2.2 (by decide)).1 (by decide),
   ((getUrgencyHorizon_spec (8 * 86400) 0 0 25200).2.2.2.2 (by decide)).2.1 (by decide),
   ((getUrgencyHorizon_spec (15 * 86400) 0 0 25200).2.2.2.2 (by decide)).2.2.1 (by decide),
   ((getUrgencyHorizon_spec (16 * 86400) 0 0 25200).2.2.2.2 (by decide)).2.2.2 (by decide)⟩

/-! ## Claim about the submission-completion coordinator -/

/-- **C3**: after submitting the datapoint, the coordinator polls at a fixed
2-second interval while the fetched snapshot's `queued` flag is true: for a
fetch sequence `queued = true, true, false` it performs exactly 3 fetches and
returns the reconciled and classified result of the third (first non-queued)
snapshot together with the submitted datapoint id. -/
theorem createAndCheckDatapoint_three_fetches (datapointId : Int)
    (g1 g2 g3 : GoalSnapshot) (rest : List GoalSnapshot)
    (now localMidnight dayStart : Int)
    (h1 : g1.queued = true) (h2 : g2.queued = true) (h3 : g3.queued = false) :
    createAndCheckDatapoint datapointId (g1 :: g2 :: g3 :: rest) now localMidnight dayStart =
      some
        { datapointId := datapointId
          fetches := 3
          safeDays := (adjustForAutoratchet g3).safeDays
          loseDate := (adjustForAutoratchet g3).loseDate
          dueBy := (adjustForAutoratchet g3).dueBy
          urgencyHorizon :=
            getUrgencyHorizon (adjustForAutoratchet g3).loseDate now localMidnight dayStart } ∧
    POLL_INTERVAL_MS = 2000 := by
  constructor
  · simp [createAndCheckDatapoint, pollForSettled, h1, h2, h3]
  · rfl

/-- Witness for **C3**: a concrete queued-queued-settled fetch sequence. -/
theorem createAndCheckDatapoint_three_fetches_witness :
    createAndCheckDatapoint 42
        [{ exRatchetGoal with queued := true }, { exRatchetGoal with queued := true },
          exRatchetGoal] 0 0 25200 =
      some
        { datapointId := 42
          fetches := 3
          safeDays := (adjustForAutoratchet exRatchetGoal).safeDays
          loseDate := (adjustForAutoratchet exRatchetGoal).loseDate
          dueBy := (adjustForAutoratchet exRatchetGoal).dueBy
          urgencyHorizon := getUrgencyHorizon (adjustForAutoratchet exRatchetGoal).loseDate 0 0 25200 } ∧
    POLL_INTERVAL_MS = 2000 :=
  createAndCheckDatapoint_three_fetches 42 { exRatchetGoal with queued := true }
    { exRatchetGoal with queued := true } exRatchetGoal [] 0 0 25200 rfl rfl rfl

/-! ## Stability lemmas for insertion sort (shared by the aggregator claims) -/

theorem orderedInsert_of_forall_rel {α : Type _} {r : α → α → Prop} [DecidableRel r]
    {x : α} {l : List α} (h : ∀ z ∈ l, r x z) :
    l.orderedInsert r x = x :: l := by
  cases l with
  | nil => rfl
  | cons y ys => rw [List.orderedInsert, if_pos (h y (List.mem_cons_self y ys))]

theorem filter_orderedInsert_pos {α : Type _} {r : α → α → Prop} [DecidableRel r]
    [IsTrans α r] {p : α → Bool} {x : α} (hp : p x = true) :
    ∀ l : List α, List.Sorted r l →
      (l.orderedInsert r x).filter p = (l.filter p).orderedInsert r x
  | [], _ => by simp [hp]
  | y :: ys, hl => by
    by_cases hxy : r x y
    · rw [List.orderedInsert, if_pos hxy]
      cases hpy : p y
      · simp only [List.filter_cons, hp, hpy, ite_true, ite_false]
        rw [orderedInsert_of_forall_rel]
        intro z hz
        exact Trans.trans hxy (List.rel_of_sorted_cons hl z (List.mem_of_mem_filter hz))
      · simp only [List.filter_cons, hp, hpy, ite_true]
        rw [List.orderedInsert, if_pos hxy]
    · rw [List.orderedInsert, if_neg hxy]
      cases hpy : p y
      · simp only [List.filter_cons, hpy, ite_false]
        exact filter_orderedInsert_pos hp ys hl.of_cons
      · simp only [List.filter_cons, hpy, ite_true]
        rw [List.orderedInsert, if_neg hxy, filter_orderedInsert_pos hp ys hl.of_cons]

theorem filter_orderedInsert_neg' {α : Type _} {r : α → α → Prop} [DecidableRel r]
    {p : α → Bool} {x : α} (hp : p x = false) :
    ∀ l : List α, (l.orderedInsert r x).filter p = l.filter p
  | [] => by simp [hp]
  | y :: ys => by
    by_cases hxy : r x y
    · rw [List.orderedInsert, if_pos hxy]
      simp [List.filter_cons, hp]
    · rw [List.orderedInsert, if_neg hxy]
      simp only [List.filter_cons, filter_orderedInsert_neg' hp ys]

/-- A stable sort commutes with filtering: sorting then filtering equals
filtering then sorting. -/
theorem filter_insertionSort' {α : Type _} {r : α → α → Prop} [DecidableRel r]
    [IsTotal α r] [IsTrans α r] (p : α → Bool) :
    ∀ l : List α, (l.insertionSort r).filter p = (l.filter p).insertionSort r
  | [] => rfl
  | x :: xs => by
    rw [List.insertionSort]
    cases hp : p x
    · rw [filter_orderedInsert_neg' hp _, filter_insertionSort' p xs, List.filter_cons]
      simp [hp]
    · rw [filter_orderedInsert_pos hp _ (List.sorted_insertionSort r xs),
        filter_insertionSort' p xs, List.filter_cons]
      simp only [hp, ite_true]
      rw [List.insertionSort]

/-! ## The `fineprint`-erased view of processed goals -/

/-- Erase the only field of a processed goal that depends on whether a full
fetch happened (`fineprint`); every other field is identical between the
filtered and unfiltered aggregator runs. -/
def stripFineprint (p : ProcessedGoal) : ProcessedGoal :=
  { p with fineprint := none }

theorem stripFineprint_getGoalDetails (now localMidnight dayStart : Int)
    (fetchFull : String → Except String GoalSnapshot)
    (f1 f2 : ProcessedGoal → Bool) (g : GoalSnapshot) :
    stripFineprint (getGoalDetails now localMidnight dayStart fetchFull f1 g) =
      stripFineprint (getGoalDetails now localMidnight dayStart fetchFull f2 g) :=
  rfl

theorem map_stripFineprint_getGoalDetails (now localMidnight dayStart : Int)
    (fetchFull : String → Except String GoalSnapshot)
    (f1 f2 : ProcessedGoal → Bool) (goals : List GoalSnapshot) :
    (goals.map (getGoalDetails now localMidnight dayStart fetchFull f1)).map stripFineprint =
      (goals.map (getGoalDetails now localMidnight dayStart fetchFull f2)).map stripFineprint := by
  induction goals with
  | nil => rfl
  | cons g gs ih =>
    simp only [List.map_cons]
    rw [stripFineprint_getGoalDetails now localMidnight dayStart fetchFull f1 f2 g, ih]

theorem map_strip_filter (q : ProcessedGoal → Bool)
    (hq : ∀ x, q (stripFineprint x) = q x) :
    ∀ l : List ProcessedGoal,
      (l.filter q).map stripFineprint = (l.map stripFineprint).filter q
  | [] => rfl
  | x :: xs => by
    simp only [List.filter_cons, List.map_cons, hq x]
    cases hx : q x
    · simp [hx, map_strip_filter q hq xs]
    · simp [hx, map_strip_filter q hq xs]

/-- Central lemma for the filtered tools: up to the `fineprint` field, a
filtered listing is exactly the filter of the unfiltered listing (same
elements, same canonical order). -/
theorem listGoals_filter_strip (goals : List GoalSnapshot)
    (fetchFull : String → Except String GoalSnapshot) (now localMidnight dayStart : Int)
    (f : ProcessedGoal → Bool) (hf : ∀ x, f (stripFineprint x) = f x) :
    (listGoals goals fetchFull (some f) now localMidnight dayStart).map stripFineprint =
      ((listGoals goals fetchFull none now localMidnight dayStart).map stripFineprint).filter f := by
  simp only [listGoals]
  rw [List.map_insertionSort urgencyLE urgencyLE stripFineprint _ (fun a _ b _ => Iff.rfl)]
  rw [map_strip_filter f hf]
  rw [map_stripFineprint_getGoalDetails now localMidnight dayStart fetchFull
    (fun goal => f goal) (fun _ => false) goals]
  rw [← filter_insertionSort' f]
  rw [← List.map_insertionSort urgencyLE urgencyLE stripFineprint _ (fun a _ b _ => Iff.rfl)]

/-! ## Claims about the lazy goal aggregator -/

/-- Concrete goals for the ordering example (no recent datapoint, so no
full-detail fetch is attempted). -/
def exGoalA : GoalSnapshot :=
  { exRatchetGoal with slug := "a", urgencykey := "x;y;DL0000000100", autoratchet := none }

def exGoalB : GoalSnapshot :=
  { exRatchetGoal with slug := "b", urgencykey := "x;y;DL0000000050", autoratchet := none }

def exGoalC : GoalSnapshot :=
  { exRatchetGoal with slug := "c", urgencykey := "x;y;DL0000000200", autoratchet := none }

/-- A full-detail fetch oracle that always fails. -/
def exFetchDown : String → Except String GoalSnapshot :=
  fun _ => Except.error "down"

/-- **C7**: `listGoals` returns its goals sorted ascending by `urgencykey`
under ordinal string comparison; in particular three goals with deadline
segments `DL0000000100`, `DL0000000050`, `DL0000000200` come back in the
order `DL...0050, DL...0100, DL...0200`. -/
theorem listGoals_sorted_by_urgencykey :
    (∀ (goals : List GoalSnapshot) (fetchFull : String → Except String GoalSnapshot)
        (urgencyFilter : Option (ProcessedGoal → Bool)) (now localMidnight dayStart : Int),
      List.Sorted urgencyLE (listGoals goals fetchFull urgencyFilter now localMidnight dayStart)) ∧
    (listGoals [exGoalA, exGoalB, exGoalC] exFetchDown none 0 0 25200).map
        (fun p => p.urgencykey) =
      ["x;y;DL0000000050", "x;y;DL0000000100", "x;y;DL0000000200"] := by
  constructor
  · intro goals fetchFull urgencyFilter now localMidnight dayStart
    simp only [listGoals]
    exact List.sorted_insertionSort urgencyLE _
  · decide

/-- A goal already at zero safe days (and with no recent datapoint, so the
unfiltered run performs no full fetch). -/
def exGoalZero : GoalSnapshot :=
  { exRatchetGoal with slug := "z", safebuf := 0, autoratchet := none }

/-- A full-detail fetch oracle that succeeds. -/
def exFetchOK : String → Except String GoalSnapshot :=
  fun _ => Except.ok exGoalZero

/-- Counterexample to **C8** as literally stated (record-level equality):
for a goal with `safe_days = 0`, the `beemergencies` member carries
`fineprint := some ""` (the filter predicate forced a successful full
fetch), while the corresponding `listGoals()` member has no `fineprint`
(the unfiltered run never fetched full data), so the filtered tool does not
return exactly the members of the unfiltered output. -/
theorem beemergencies_not_exact_subset :
    ¬ (beemergencies [exGoalZero] exFetchOK 0 0 25200 =
        (listGoals [exGoalZero] exFetchOK none 0 0 25200).filter
          (fun p => p.safe_days == 0)) := by
  decide

/-- **C8** (amended): up to the `fineprint` field — which the filtered run
may additionally populate via its filter-triggered full fetch —
`beemergencies` returns exactly the members of the `listGoals` output with
`safe_days = 0` and `calendial` exactly those with `urgency_horizon =
"calendial"`, and both preserve the canonical `urgencykey` sort order of the
unfiltered listing. -/
theorem beemergencies_calendial_subsets (goals : List GoalSnapshot)
    (fetchFull : String → Except String GoalSnapshot) (now localMidnight dayStart : Int) :
    ((beemergencies goals fetchFull now localMidnight dayStart).map stripFineprint =
      ((listGoals goals fetchFull none now localMidnight dayStart).map stripFineprint).filter
        (fun p => p.safe_days == 0)) ∧
    ((calendialGoals goals fetchFull now localMidnight dayStart).map stripFineprint =
      ((listGoals goals fetchFull none now localMidnight dayStart).map stripFineprint).filter
        (fun p => p.urgency_horizon == "calendial")) ∧
    List.Sorted urgencyLE (beemergencies goals fetchFull now localMidnight dayStart) ∧
    List.Sorted urgencyLE (calendialGoals goals fetchFull now localMidnight dayStart) := by
  refine ⟨?_, ?_, ?_, ?_⟩
  · exact listGoals_filter_strip goals fetchFull now localMidnight dayStart
      (fun p => p.safe_days == 0) (fun _ => rfl)
  · exact listGoals_filter_strip goals fetchFull now localMidnight dayStart
      (fun p => p.urgency_horizon == "calendial") (fun _ => rfl)
  · simp only [beemergencies, listGoals]
    exact List.sorted_insertionSort urgencyLE _
  · simp only [calendialGoals, listGoals]
    exact List.sorted_insertionSort urgencyLE _

/-- **C9**: when the per-goal full-detail fetch fails, `getGoalDetails`
still produces the goal from its lightweight values (nothing reconciled, no
`fineprint`), and an unfiltered listing always contains every goal of the
input, so one goal's fetch failure never shrinks the listing. -/
theorem listGoals_fetch_failure_recovered (now localMidnight dayStart : Int)
    (fetchFull : String → Except String GoalSnapshot)
    (needsFullDataFilter : ProcessedGoal → Bool) (g : GoalSnapshot) (e : String)
    (hfail : fetchFull g.slug = Except.error e) :
    getGoalDetails now localMidnight dayStart fetchFull needsFullDataFilter g =
      { urgency_horizon := getUrgencyHorizon g.losedate now localMidnight dayStart
        due_by := formatDueDate g.losedate
        safe_days := g.safebuf
        safebuf := g.safebuf
        rate_description := toString g.rate ++ " " ++ g.runits ++ " per " ++ g.gunits
        current_value := g.curval
        target_value := g.goalval
        urgencykey := g.urgencykey
        slug := g.slug
        title := g.title
        description := g.description
        fineprint := none } ∧
    ∀ (goals : List GoalSnapshot) (fetch : String → Except String GoalSnapshot),
      (listGoals goals fetch none now localMidnight dayStart).length = goals.length := by
  constructor
  · simp [getGoalDetails, hfail]
  · intro goals fetch
    simp [listGoals]

/-- A goal touched today (`last_datapoint` fresh), forcing the autoratchet
full fetch during listing. -/
def exGoalFresh : GoalSnapshot :=
  { exRatchetGoal with last_datapoint := some 0 }

/-- Witness for **C9**: the fetch oracle is down, yet the goal is still
listed from its lightweight fields. -/
theorem listGoals_fetch_failure_recovered_witness :
    (getGoalDetails 0 0 25200 exFetchDown (fun _ => false) exGoalFresh =
      { urgency_horizon := getUrgencyHorizon exGoalFresh.losedate 0 0 25200
        due_by := formatDueDate exGoalFresh.losedate
        safe_days := exGoalFresh.safebuf
        safebuf := exGoalFresh.safebuf
        rate_description :=
          toString exGoalFresh.rate ++ " " ++ exGoalFresh.runits ++ " per " ++ exGoalFresh.gunits
        current_value := exGoalFresh.curval
        target_value := exGoalFresh.goalval
        urgencykey := exGoalFresh.urgencykey
        slug := exGoalFresh.slug
        title := exGoalFresh.title
        description := exGoalFresh.description
        fineprint := none }) ∧
    ∀ (goals : List GoalSnapshot) (fetch : String → Except String GoalSnapshot),
      (listGoals goals fetch none 0 0 25200).length = goals.length :=
  listGoals_fetch_failure_recovered 0 0 25200 exFetchDown (fun _ => false) exGoalFresh
    "down" rfl

theorem getGoalDetails_safebuf_eq (now localMidnight dayStart : Int)
    (fetchFull : String → Except String GoalSnapshot)
    (needsFullDataFilter : ProcessedGoal → Bool) (g : GoalSnapshot) :
    (getGoalDetails now localMidnight dayStart fetchFull needsFullDataFilter g).safebuf =
      (getGoalDetails now localMidnight dayStart fetchFull needsFullDataFilter g).safe_days :=
  rfl

/-- **C10**: in every processed goal the aggregator emits, the `safebuf`
field equals the `safe_days` field — both carry the reconciled value, so a
reconciled goal never exposes the raw remote `safebuf` in the listing
output. -/
theorem listGoals_safebuf_eq_safe_days (goals : List GoalSnapshot)
    (fetchFull : String → Except String GoalSnapshot)
    (urgencyFilter : Option (ProcessedGoal → Bool)) (now localMidnight dayStart : Int)
    (p : ProcessedGoal)
    (hp : p ∈ listGoals goals fetchFull urgencyFilter now localMidnight dayStart) :
    p.safebuf = p.safe_days := by
  simp only [listGoals, List.mem_insertionSort] at hp
  cases urgencyFilter with
  | some f =>
    obtain ⟨g, _, rfl⟩ := List.mem_map.1 (List.mem_of_mem_filter hp)
    exact getGoalDetails_safebuf_eq now localMidnight dayStart fetchFull _ g
  | none =>
    obtain ⟨g, _, rfl⟩ := List.mem_map.1 hp
    exact getGoalDetails_safebuf_eq now localMidnight dayStart fetchFull _ g

/-- Witness for **C10**: a member of a concrete listing has `safebuf` equal
to `safe_days`. -/
theorem listGoals_safebuf_eq_safe_days_witness :
    getGoalDetails 0 0 25200 exFetchDown (fun _ => false) exGoalA ∈
        listGoals [exGoalA, exGoalB, exGoalC] exFetchDown none 0 0 25200 ∧
    (getGoalDetails 0 0 25200 exFetchDown (fun _ => false) exGoalA).safebuf =
      (getGoalDetails 0 0 25200 exFetchDown (fun _ => false) exGoalA).safe_days :=
  ⟨by decide,
   listGoals_safebuf_eq_safe_days [exGoalA, exGoalB, exGoalC] exFetchDown none 0 0 25200
     (getGoalDetails 0 0 25200 exFetchDown (fun _ => false) exGoalA) (by decide)⟩

end Beeminder
